import Mathlib

/-!
Verification of the genomics-upload-service core: a shallow embedding of
the data model (src/src/models), the file scanner
(src/src/services/file_utils.py), the orchestrator
(src/src/services/orchestrator.py), the upload worker
(src/src/services/upload_worker.py) and the progress projector
(src/src/core/progress.py), together with theorems settling the spec's
claims about them.

Modelling conventions:
* Machine floats holding seconds-since-epoch are modelled as rationals.
* The Python runtime distinction between a float and a datetime object
  matters to the code (the scanner stores datetime objects while the
  orchestrator subtracts them from time.time(), a float, which raises
  TypeError), so mtime values carry their runtime type (PyTime below).
* The relational store is modelled as in-memory lists of rows; ORM
  attribute assignment and commit are modelled as storing the assigned
  Python value on the row.
* Network and filesystem effects (bucket checks, S3 calls, stat results)
  are inputs to the embedded functions, supplied through environment
  records, so every function is a pure, executable definition.
-/

namespace Genomics

/-- States of a File row (src/src/models/file.py, class FileState). -/
inductive FileState
  | PENDING
  | IN_PROGRESS
  | UPLOADED
  | FAILED
deriving DecidableEq

/-- States of an UploadJob row (src/src/models/upload_job.py, class
UploadJobState). -/
inductive UploadJobState
  | PENDING
  | IN_PROGRESS
  | COMPLETED
  | FAILED
deriving DecidableEq

/-- A Python runtime value used as an mtime. find_matching_files
(src/src/services/file_utils.py line 19) stores
datetime.fromtimestamp(stat.st_mtime, tz=timezone.utc) -- a datetime
object -- while File.mtime is declared as a Float column ("Unix
timestamp", src/src/models/file.py line 21) and the orchestrator
subtracts mtimes from time.time(), a float. Every constructor carries
the underlying seconds-since-epoch value; the constructor records the
runtime type: float and datetime are the values the source code builds,
and text is the primitive a fresh database session reads back after a
datetime was committed into the Float column (the sqlite3 driver
serialises the datetime to its ISO text and returns only primitives, so
no later session ever sees a datetime object again; see
floatColumnRoundTrip). -/
inductive PyTime
  | float (t : ℚ)
  | datetime (t : ℚ)
  | text (t : ℚ)
deriving DecidableEq

/-- Python exceptions relevant to the embedded code paths. -/
inductive PyError
  | typeError
deriving DecidableEq

/-- Python subtraction a - b where a is a float (time.time()) and b is an
mtime value: float - float yields a float, while float - datetime and
float - str both raise TypeError (datetime defines subtraction only
against datetime/timedelta, str not at all). -/
def pySubFloat (a : ℚ) : PyTime → Except PyError ℚ
  | PyTime.float t => Except.ok (a - t)
  | PyTime.datetime _ => Except.error PyError.typeError
  | PyTime.text _ => Except.error PyError.typeError

/-- The per-file information returned by the scanner: the dict
\x7b'mtime': ..., 'size': ...\x7d of file_utils.find_matching_files. -/
structure FileInfo where
  mtime : PyTime
  size : ℕ
deriving DecidableEq

/-- Result of os.stat on a regular file: modification time (seconds since
epoch) and size in bytes. -/
structure FileStat where
  st_mtime : ℚ
  st_size : ℕ
deriving DecidableEq

/-- One regular file encountered by os.walk over the source folder:
its path relative to the source folder, its base name, and the result of
os.stat (none models an OSError raised by stat). -/
structure FsEntry where
  relpath : String
  name : String
  stat : Option FileStat
deriving DecidableEq

/-- The observable filesystem below one source folder: whether the folder
exists, and the regular files os.walk yields (in walk order). -/
structure Fs where
  folder_exists : Bool
  entries : List FsEntry
deriving DecidableEq

/-- Python dict assignment files[k] = v on an association list: replaces
the value at an existing key, otherwise appends (insertion order kept). -/
def dictInsert (m : List (String × FileInfo)) (k : String) (v : FileInfo) :
    List (String × FileInfo) :=
  if m.any (fun p => decide (p.1 = k)) then
    m.map (fun p => if p.1 = k then (k, v) else p)
  else m ++ [(k, v)]

/-- Embeds find_matching_files (src/src/services/file_utils.py lines
6-24). fnmatch abstracts fnmatch.fnmatch (stdlib glob matching on the
base name). Returns the empty dict when the source folder does not
exist; files whose stat raises OSError are skipped; a matching, statable
file is recorded with mtime datetime.fromtimestamp(st_mtime, utc) and
size st_size. -/
def find_matching_files (fnmatch : String → String → Bool) (fs : Fs)
    (pattern : String) : List (String × FileInfo) :=
  if !fs.folder_exists then []
  else
    fs.entries.foldl
      (fun files e =>
        if fnmatch e.name pattern then
          match e.stat with
          | some st =>
              dictInsert files e.relpath
                ⟨PyTime.datetime st.st_mtime, st.st_size⟩
          | none => files
        else files)
      []

/-- A File row (src/src/models/file.py, class File). created_at and
updated_at are bookkeeping timestamps no claim depends on and are
omitted. -/
structure FileRow where
  id : ℕ
  upload_job_id : String
  path : String
  state : FileState
  failure_reason : Option String
  mtime : Option PyTime
  size : Option ℕ
deriving DecidableEq

/-- An UploadJob row (src/src/models/upload_job.py, class UploadJob). -/
structure JobRow where
  id : String
  source_folder : String
  destination_bucket : String
  pattern : Option String
  state : UploadJobState
deriving DecidableEq

/-- The relational store as one session sees it: the upload_jobs and
files tables, plus the autoincrement counter for files.id. Row fields
hold the Python values assigned in the current session (ORM attribute
assignment). What a later, fresh session reads back is the same value
for every column except mtime: the Float mtime column cannot return a
committed datetime object, so cross-session reads go through reloadDB
below. -/
structure DB where
  jobs : List JobRow
  files : List FileRow
  nextFileId : ℕ
deriving DecidableEq

/-- db.query(UploadJob).filter(UploadJob.id == upload_id).first() -/
def findJob (db : DB) (upload_id : String) : Option JobRow :=
  db.jobs.find? (fun j => decide (j.id = upload_id))

/-- Assigning job.state = s followed by commit, for the job row with the
given id. -/
def setJobState (db : DB) (upload_id : String) (s : UploadJobState) : DB :=
  { db with
    jobs := db.jobs.map (fun j => if j.id = upload_id then { j with state := s } else j) }

/-- The persisted state of a job, if the job row exists. -/
def jobStateOf (db : DB) (upload_id : String) : Option UploadJobState :=
  (findJob db upload_id).map JobRow.state

/-- Lookup of the File row of a job keyed by relative path (the
existing_files dict of _filter_files_to_upload). -/
def findFileRow (db : DB) (upload_job_id : String) (path : String) :
    Option FileRow :=
  db.files.find? (fun f => decide (f.upload_job_id = upload_job_id ∧ f.path = path))

/-- Mutating the ORM File object at (job, path): assignment of fields on
the row, later flushed by commit. -/
def updateFileRow (db : DB) (upload_job_id : String) (path : String)
    (g : FileRow → FileRow) : DB :=
  { db with
    files := db.files.map
      (fun f => if f.upload_job_id = upload_job_id ∧ f.path = path then g f else f) }

/-- db.add(File(upload_job_id=..., path=..., mtime=..., size=...,
state=PENDING)): a fresh PENDING row with the observed fingerprint. The
mtime stored here is the in-session Python value (the scanner's
datetime); its durable form after commit, as the next session reads it,
is floatColumnRoundTrip of it (see reloadDB). -/
def addFileRow (db : DB) (upload_job_id : String) (path : String)
    (info : FileInfo) : DB :=
  { db with
    files := db.files ++
      [⟨db.nextFileId, upload_job_id, path, FileState.PENDING, none,
        some info.mtime, some info.size⟩],
    nextFileId := db.nextFileId + 1 }

/-- db.query(File).filter(File.id == file_id).first() -/
def findFileById (db : DB) (file_id : ℕ) : Option FileRow :=
  db.files.find? (fun f => decide (f.id = file_id))

/-- Mutating the ORM File object fetched by id. -/
def updateFileById (db : DB) (file_id : ℕ) (g : FileRow → FileRow) : DB :=
  { db with files := db.files.map (fun f => if f.id = file_id then g f else f) }

/-- All File rows of one job, in table order. -/
def jobFiles (db : DB) (upload_job_id : String) : List FileRow :=
  db.files.filter (fun f => decide (f.upload_job_id = upload_job_id))

/-- A filtered count over one job's File rows (the count() queries of the
orchestrator and the progress projector). -/
def countJobFiles (db : DB) (upload_job_id : String) (p : FileRow → Bool) : ℕ :=
  (jobFiles db upload_job_id).countP p

/-- The durable form of an mtime value after one commit/re-read cycle of
the Float mtime column (src/src/models/file.py line 21): a float binds
and returns as a float; a committed datetime does not survive -- the
sqlite3 driver serialises it to its ISO text (and returns primitives
only, SQLAlchemy's Float adding no decoding), so the fresh session gets
that text back, never a datetime object. The text value carries the
encoded seconds so that equal datetimes keep equal durable forms. -/
def floatColumnRoundTrip : PyTime → PyTime
  | PyTime.float t => PyTime.float t
  | PyTime.datetime t => PyTime.text t
  | PyTime.text t => PyTime.text t

/-- A File row as a fresh session reads it back after the previous
session committed: only the mtime column's value can change form. -/
def reloadFileRow (f : FileRow) : FileRow :=
  { f with mtime := f.mtime.map floatColumnRoundTrip }

/-- The store as the next call of process_upload_job sees it (each call
opens its own session with get_db_session): every File row re-read
through the mtime column round trip. -/
def reloadDB (db : DB) : DB :=
  { db with files := db.files.map reloadFileRow }

/-- Python upload_job.pattern or "*" (None and the empty string are both
falsy). Used by _scan_files (src/src/services/orchestrator.py line 126). -/
def patternOrStar : Option String → String
  | none => "*"
  | some s => if s = "" then "*" else s

/-- Embeds is_file_stable of _filter_files_to_upload
(src/src/services/orchestrator.py lines 151-157): True outright when the
recently-changed filter is off; otherwise computes
current_time - file_info['mtime'] (which raises TypeError on the
datetime mtimes the scanner produces) and compares the elapsed time
against settings.file_stability_threshold. -/
def is_file_stable (filterRecent : Bool) (now threshold : ℚ)
    (info : FileInfo) : Except PyError Bool :=
  if !filterRecent then Except.ok true
  else
    match pySubFloat now info.mtime with
    | Except.error e => Except.error e
    | Except.ok d => Except.ok (decide (threshold ≤ d))

/-- State threaded through the reconciliation loop of
_filter_files_to_upload: the session (with its pending row mutations),
the files_to_upload accumulator (rows recorded by the path that keys
them), and the pending exception if an iteration raised (mutations made
by earlier iterations stay on the session). -/
structure RecResult where
  db : DB
  toUpload : List String
  err : Option PyError
deriving DecidableEq

/-- Row mutation of the modified-UPLOADED branch
(src/src/services/orchestrator.py lines 184-187): refresh the
fingerprint, reset to PENDING, clear failure_reason. As with addFileRow,
the assigned mtime is the in-session datetime; the value a later session
reads back from the Float column is its floatColumnRoundTrip image. -/
def markModified (info : FileInfo) (f : FileRow) : FileRow :=
  { f with mtime := some info.mtime, size := some info.size,
           state := FileState.PENDING, failure_reason := none }

/-- Row mutation of the non-UPLOADED branch
(src/src/services/orchestrator.py lines 199-200): reset to PENDING and
clear failure_reason; mtime and size are not touched. -/
def markReenqueued (f : FileRow) : FileRow :=
  { f with state := FileState.PENDING, failure_reason := none }

/-- One iteration of the reconciliation loop of _filter_files_to_upload
(src/src/services/orchestrator.py lines 165-215) on the scan entry pf =
(path, info): skip unstable files; skip an UPLOADED row whose recorded
(mtime, size) equals the scanned one; refresh and re-enqueue a modified
UPLOADED row; reset and re-enqueue any other existing row; create and
enqueue a PENDING row for an unknown path. Once an exception is pending
the remaining iterations do not run. -/
def reconcileStep (upload_id : String) (filterRecent : Bool)
    (now threshold : ℚ) (acc : RecResult) (pf : String × FileInfo) :
    RecResult :=
  match acc.err with
  | some _ => acc
  | none =>
    match is_file_stable filterRecent now threshold pf.2 with
    | Except.error e => { acc with err := some e }
    | Except.ok stable =>
      if !stable then acc
      else
        match findFileRow acc.db upload_id pf.1 with
        | some row =>
          if row.state = FileState.UPLOADED then
            if row.mtime = some pf.2.mtime ∧ row.size = some pf.2.size then
              acc
            else
              { acc with
                db := updateFileRow acc.db upload_id pf.1 (markModified pf.2),
                toUpload := acc.toUpload ++ [pf.1] }
          else
            { acc with
              db := updateFileRow acc.db upload_id pf.1 markReenqueued,
              toUpload := acc.toUpload ++ [pf.1] }
        | none =>
          { acc with
            db := addFileRow acc.db upload_id pf.1 pf.2,
            toUpload := acc.toUpload ++ [pf.1] }

/-- Embeds _filter_files_to_upload (src/src/services/orchestrator.py
lines 144-229): folds the reconciliation step over the scan result
(current_files, in dict order) starting from the loaded session and an
empty files_to_upload list. -/
def filter_files_to_upload (db : DB) (upload_id : String)
    (current : List (String × FileInfo)) (filterRecent : Bool)
    (now threshold : ℚ) : RecResult :=
  current.foldl (reconcileStep upload_id filterRecent now threshold)
    ⟨db, [], none⟩

/-- The database effect of _upload_files_concurrently
(src/src/services/orchestrator.py lines 231-258): each enqueued row is
handed to upload_worker.upload_file, which leaves the row in a terminal
state with an optional failure_reason. The per-row outcome is an input
(it depends on the filesystem and object store; upload_file below embeds
one worker run precisely); gather(..., return_exceptions=True) means
worker failures do not abort peers, and an empty batch does nothing. -/
def uploadPhase (db : DB) (upload_id : String) (paths : List String)
    (outcome : String → FileState × Option String) : DB :=
  paths.foldl
    (fun db p =>
      updateFileRow db upload_id p
        (fun f => { f with state := (outcome p).1, failure_reason := (outcome p).2 }))
    db

/-- Embeds _update_job_state_after_upload
(src/src/services/orchestrator.py lines 260-301): count the job's total,
UPLOADED and FAILED rows; when uploaded + failed = total persist
COMPLETED (failed = 0) or FAILED (failed > 0); otherwise leave the job
row untouched. Exceptions inside this function are swallowed by its own
try/except. -/
def update_job_state_after_upload (db : DB) (upload_id : String) : DB :=
  match findJob db upload_id with
  | none => db
  | some _ =>
    let total := (jobFiles db upload_id).length
    let uploaded :=
      countJobFiles db upload_id (fun f => decide (f.state = FileState.UPLOADED))
    let failed :=
      countJobFiles db upload_id (fun f => decide (f.state = FileState.FAILED))
    if uploaded + failed = total then
      if failed = 0 then setJobState db upload_id UploadJobState.COMPLETED
      else setJobState db upload_id UploadJobState.FAILED
    else db

/-- External effects visible to one run of process_upload_job: the
ensure_bucket_exists outcome, the filesystem below the job's
source_folder together with the glob matcher, time.time() and
settings.file_stability_threshold, and the terminal row written by each
worker of the upload phase (keyed by the enqueued row's path). -/
structure Env where
  bucket_ok : Bool
  fnmatch : String → String → Bool
  fs : Fs
  now : ℚ
  threshold : ℚ
  outcome : String → FileState × Option String

/-- Embeds Orchestrator.process_upload_job
(src/src/services/orchestrator.py lines 21-90): load the job (missing:
return False); set it IN_PROGRESS; ensure the bucket (failure: job
FAILED, return False); scan (empty: job COMPLETED, return True);
reconcile; on an exception escaping the reconciliation the except
handler re-fetches the job, sets it FAILED on the same session (flushing
the mutations made before the exception) and returns False; otherwise
upload the enqueued rows and recompute the terminal job state. -/
def process_upload_job (db : DB) (upload_id : String) (filterRecent : Bool)
    (env : Env) : DB × Bool :=
  match findJob db upload_id with
  | none => (db, false)
  | some job =>
    let db1 := setJobState db upload_id UploadJobState.IN_PROGRESS
    if !env.bucket_ok then
      (setJobState db1 upload_id UploadJobState.FAILED, false)
    else
      let current := find_matching_files env.fnmatch env.fs (patternOrStar job.pattern)
      if current.isEmpty then
        (setJobState db1 upload_id UploadJobState.COMPLETED, true)
      else
        let r := filter_files_to_upload db1 upload_id current filterRecent
          env.now env.threshold
        match r.err with
        | some _ => (setJobState r.db upload_id UploadJobState.FAILED, false)
        | none =>
          let db2 := uploadPhase r.db upload_id r.toUpload env.outcome
          (update_job_state_after_upload db2 upload_id, true)

/-- The delete of retry_job (src/src/services/orchestrator.py lines
102-105): remove every File row of the job whose state is in
[PENDING, FAILED, IN_PROGRESS]. -/
def retryDelete (db : DB) (upload_id : String) : DB :=
  { db with
    files := db.files.filter
      (fun f =>
        !(decide (f.upload_job_id = upload_id) &&
          (decide (f.state = FileState.PENDING) ||
           decide (f.state = FileState.FAILED) ||
           decide (f.state = FileState.IN_PROGRESS)))) }

/-- Embeds Orchestrator.retry_job (src/src/services/orchestrator.py
lines 92-120): delete the non-completed File rows, commit, then process
the job with the recently-changed filter at its default False. -/
def retry_job (db : DB) (upload_id : String) (env : Env) : DB × Bool :=
  process_upload_job (retryDelete db upload_id) upload_id false env

/-- External effects visible to one run of upload_worker.upload_file on
one file: whether os.path.exists(source_path) holds, the size
os.path.getsize returns at upload time, whether _upload_file_to_s3
succeeded (its own try/except turns any S3 exception into False), and
the ContentLength returned by head_object in _verify_upload (none models
head_object raising). -/
structure WorkerEnv where
  sourceExists : Bool
  sourceSize : ℕ
  uploadOk : Bool
  headResult : Option ℕ

/-- Embeds _verify_upload (src/src/services/upload_worker.py lines
253-286): head_object the key and succeed iff the returned ContentLength
equals the expected size; any exception yields False. -/
def verify_upload (headResult : Option ℕ) (expected_size : ℕ) : Bool :=
  match headResult with
  | some actual_size => decide (actual_size = expected_size)
  | none => false

/-- Embeds UploadWorker.upload_file (src/src/services/upload_worker.py
lines 22-105): missing File row or missing UploadJob row return False
with no mutation; otherwise the row goes IN_PROGRESS, then FAILED with a
reason when the source file is absent, when the S3 upload fails, or when
verification fails, and UPLOADED when the upload verifies. The S3 key is
os.path.join(str(upload_job.id), file_record.path), i.e. the job id, a
forward slash, and the relative path. -/
def upload_file (db : DB) (file_id : ℕ) (env : WorkerEnv) : DB × Bool :=
  match findFileById db file_id with
  | none => (db, false)
  | some file_record =>
    match findJob db file_record.upload_job_id with
    | none => (db, false)
    | some upload_job =>
      let db := updateFileById db file_id
        (fun f => { f with state := FileState.IN_PROGRESS })
      let source_path := upload_job.source_folder ++ "/" ++ file_record.path
      if !env.sourceExists then
        (updateFileById db file_id
          (fun f =>
            { f with state := FileState.FAILED,
                     failure_reason := some ("Source file not found: " ++ source_path) }),
         false)
      else
        let file_size := env.sourceSize
        let s3_key := upload_job.id ++ "/" ++ file_record.path
        if env.uploadOk then
          if verify_upload env.headResult file_size then
            (updateFileById db file_id
              (fun f => { f with state := FileState.UPLOADED }), true)
          else
            (updateFileById db file_id
              (fun f =>
                { f with state := FileState.FAILED,
                         failure_reason :=
                           some ("Upload verification failed for S3 key: " ++ s3_key) }),
             false)
        else
          (updateFileById db file_id
            (fun f =>
              { f with state := FileState.FAILED,
                       failure_reason :=
                         some ("File upload failed for S3 key: " ++ s3_key) }),
           false)

/-- The while loop of _multipart_upload computing part_info
(src/src/services/upload_worker.py lines 193-202): starting at offset 0
and part_number 1, each iteration takes size = min(chunk_size,
file_size - offset) and advances. fuel bounds the number of iterations;
part_info below supplies file_size + 1, enough whenever chunk_size > 0
since every iteration advances the offset by at least one byte. -/
def partLoop (chunk_size file_size : ℕ) : ℕ → ℕ → ℕ → List (ℕ × ℕ × ℕ)
  | 0, _, _ => []
  | fuel + 1, offset, part_number =>
    if offset < file_size then
      let size := min chunk_size (file_size - offset)
      (part_number, offset, size) ::
        partLoop chunk_size file_size fuel (offset + size) (part_number + 1)
    else []

/-- The part_info list of _multipart_upload: (part_number, offset, size)
triples in creation order. -/
def part_info (chunk_size file_size : ℕ) : List (ℕ × ℕ × ℕ) :=
  partLoop chunk_size file_size (file_size + 1) 0 1

/-- The shape of the S3 traffic chosen by _upload_file_to_s3. -/
inductive UploadPlan
  | single
  | multipart (parts : List (ℕ × ℕ × ℕ))
deriving DecidableEq

/-- Embeds the dispatch of _upload_file_to_s3
(src/src/services/upload_worker.py lines 107-121): a single put_object
when file_size <= chunk_size, otherwise a multipart upload over
part_info. -/
def upload_plan (chunk_size file_size : ℕ) : UploadPlan :=
  if file_size ≤ chunk_size then UploadPlan.single
  else UploadPlan.multipart (part_info chunk_size file_size)

/-- The parts list submitted by complete_multipart_upload
(src/src/services/upload_worker.py lines 204-227): one upload task per
part_info entry, in part_info order; asyncio.gather returns results in
task order, and the resulting list of \x7bETag, PartNumber\x7d dicts is
passed to completion unchanged. etag abstracts the ETag the store
returns for each part number. -/
def multipart_completion_parts (chunk_size file_size : ℕ)
    (etag : ℕ → String) : List (ℕ × String) :=
  (part_info chunk_size file_size).map (fun t => (t.1, etag t.1))

/-- The dict returned by compute_job_progress
(src/src/core/progress.py lines 9-41). -/
structure ProgressInfo where
  progress : ℚ
  total_files : ℕ
  completed_files : ℕ
  failed_files : ℕ
deriving DecidableEq

/-- Embeds compute_job_progress (src/src/core/progress.py lines 9-41):
count the job's total, UPLOADED and FAILED rows; progress is 1.0 for an
empty job and uploaded / total otherwise. Pure: the session is only
read. -/
def compute_job_progress (db : DB) (upload_job_id : String) : ProgressInfo :=
  let total_files := (jobFiles db upload_job_id).length
  let uploaded_files :=
    countJobFiles db upload_job_id (fun f => decide (f.state = FileState.UPLOADED))
  let failed_files :=
    countJobFiles db upload_job_id (fun f => decide (f.state = FileState.FAILED))
  { progress := if total_files = 0 then 1 else (uploaded_files : ℚ) / total_files,
    total_files := total_files,
    completed_files := uploaded_files,
    failed_files := failed_files }

/-- Embeds compute_job_state (src/src/core/progress.py lines 44-75):
none when the job row is missing; otherwise COMPLETED when the job has
no files or all are UPLOADED, FAILED when some failed and all are
terminal, the persisted state when it is PENDING or IN_PROGRESS, and
IN_PROGRESS otherwise. Pure: the session is only read. -/
def compute_job_state (db : DB) (upload_job_id : String) :
    Option UploadJobState :=
  match findJob db upload_job_id with
  | none => none
  | some upload_job =>
    let info := compute_job_progress db upload_job_id
    let total_files := info.total_files
    let uploaded_files := info.completed_files
    let failed_files := info.failed_files
    if total_files = 0 then some UploadJobState.COMPLETED
    else if uploaded_files = total_files then some UploadJobState.COMPLETED
    else if 0 < failed_files ∧ uploaded_files + failed_files = total_files then
      some UploadJobState.FAILED
    else if upload_job.state = UploadJobState.PENDING ∨
        upload_job.state = UploadJobState.IN_PROGRESS then
      some upload_job.state
    else some UploadJobState.IN_PROGRESS

/-!  Concrete instances used by witnesses and counterexamples. -/

/-- A matcher accepting every name: concrete stand-in for fnmatch with
the default pattern "*". -/
def matchAll : String → String → Bool := fun _ _ => true

/-- A worker outcome recording every enqueued row as UPLOADED. -/
def outcomeUploaded : String → FileState × Option String :=
  fun _ => (FileState.UPLOADED, none)

/-- A filesystem holding one regular file a.txt, mtime 100 s, 5 bytes. -/
def fsOneFile : Fs := ⟨true, [⟨"a.txt", "a.txt", some ⟨100, 5⟩⟩]⟩

/-- A store with job j (state COMPLETED) and the a.txt row UPLOADED with
the fingerprint the scanner reports for fsOneFile. -/
def dbUploadedOne : DB :=
  ⟨[⟨"j", "/data", "bkt", none, UploadJobState.COMPLETED⟩],
   [⟨1, "j", "a.txt", FileState.UPLOADED, none,
     some (PyTime.datetime 100), some 5⟩], 2⟩

/-- A store with job j (state COMPLETED) and no File rows. -/
def dbNoFiles : DB :=
  ⟨[⟨"j", "/data", "bkt", none, UploadJobState.COMPLETED⟩], [], 1⟩

/-- The monitored-rescan environment over fsOneFile: bucket available,
time.time() = 1000, default 30 s stability threshold. -/
def envMonitor : Env := ⟨true, matchAll, fsOneFile, 1000, 30, outcomeUploaded⟩

/-- An environment over an empty, absent filesystem (used where the
claim never consults it). -/
def envTrivial : Env := ⟨true, matchAll, ⟨false, []⟩, 0, 30, outcomeUploaded⟩

/-- A store with job j and a PENDING a.txt row, id 1. -/
def dbPendingOne : DB :=
  ⟨[⟨"j", "/data", "bkt", none, UploadJobState.IN_PROGRESS⟩],
   [⟨1, "j", "a.txt", FileState.PENDING, none,
     some (PyTime.datetime 100), some 5⟩], 2⟩

/-- Worker environment: source present with 5 bytes, S3 upload succeeds,
head_object reports 7 bytes (a verification mismatch). -/
def wenvMismatch : WorkerEnv := ⟨true, 5, true, some 7⟩

/-- Worker environment: source present with 5 bytes, S3 upload succeeds,
head_object reports 5 bytes (verification passes). -/
def wenvMatch : WorkerEnv := ⟨true, 5, true, some 5⟩

/-- A store for the retry claim: job j with one UPLOADED and one FAILED
row, and a PENDING row of another job k. -/
def dbRetry : DB :=
  ⟨[⟨"j", "/data", "bkt", none, UploadJobState.FAILED⟩,
    ⟨"k", "/other", "bkt", none, UploadJobState.IN_PROGRESS⟩],
   [⟨1, "j", "a.txt", FileState.UPLOADED, none, some (PyTime.datetime 100), some 5⟩,
    ⟨2, "j", "b.txt", FileState.FAILED, some ("boom"), some (PyTime.datetime 100), some 9⟩,
    ⟨3, "k", "c.txt", FileState.PENDING, none, none, none⟩], 4⟩

/-- A store with job j IN_PROGRESS holding one UPLOADED and one FAILED
row: the batch is fully terminal with a failure. -/
def dbMixed : DB :=
  ⟨[⟨"j", "/data", "bkt", none, UploadJobState.IN_PROGRESS⟩],
   [⟨1, "j", "a.txt", FileState.UPLOADED, none, some (PyTime.datetime 100), some 5⟩,
    ⟨2, "j", "b.txt", FileState.FAILED, some ("x"), none, none⟩], 3⟩

/-!  General lemmas about the store operations. -/

/-- setJobState only touches the jobs table. -/
theorem setJobState_files (db : DB) (id : String) (s : UploadJobState) :
    (setJobState db id s).files = db.files := rfl

/-- Looking the job up again after setJobState returns the same row with
only its state replaced. -/
theorem findJob_setJobState_self (db : DB) (id : String) (s : UploadJobState) :
    findJob (setJobState db id s) id =
      (findJob db id).map (fun j => { j with state := s }) := by
  unfold findJob setJobState
  rw [List.find?_map]
  have hp : (fun j : JobRow => decide (j.id = id)) ∘
      (fun j : JobRow => if j.id = id then { j with state := s } else j) =
      (fun j : JobRow => decide (j.id = id)) := by
    funext j
    by_cases h : j.id = id <;> simp [h]
  rw [hp]
  cases h : db.jobs.find? (fun j => decide (j.id = id)) with
  | none => rfl
  | some j =>
    have := List.find?_some h
    simp only [decide_eq_true_eq] at this
    simp [this]

/-- Re-fetching a file by id after updateFileById with an id-preserving
mutation returns the mutated row. -/
theorem findFileById_updateFileById (db : DB) (fid : ℕ) (g : FileRow → FileRow)
    (hg : ∀ f, (g f).id = f.id) (row : FileRow)
    (h : findFileById db fid = some row) :
    findFileById (updateFileById db fid g) fid = some (g row) := by
  unfold findFileById updateFileById at *
  rw [List.find?_map]
  have hp : (fun f : FileRow => decide (f.id = fid)) ∘
      (fun f : FileRow => if f.id = fid then g f else f) =
      (fun f : FileRow => decide (f.id = fid)) := by
    funext f
    by_cases hc : f.id = fid <;> simp [hc, hg]
  rw [hp, h]
  have hrow := List.find?_some h
  simp only [decide_eq_true_eq] at hrow
  simp [hrow]

/-- With the recently-changed filter off the stability check is
trivially true (the mtime subtraction is never evaluated). -/
theorem is_file_stable_false (now threshold : ℚ) (info : FileInfo) :
    is_file_stable false now threshold info = Except.ok true := rfl

/-- Re-querying a row by (job, path) after updateFileRow rewrites the
hit, if any, through the conditional mutation, provided the mutation
keeps the row's key fields. -/
theorem findFileRow_updateFileRow (db : DB) (jid q : String)
    (g : FileRow → FileRow)
    (hg : ∀ f, (g f).upload_job_id = f.upload_job_id ∧ (g f).path = f.path)
    (p : String) :
    findFileRow (updateFileRow db jid q g) jid p =
      (findFileRow db jid p).map
        (fun f => if f.upload_job_id = jid ∧ f.path = q then g f else f) := by
  unfold findFileRow updateFileRow
  rw [List.find?_map]
  have hp : (fun f : FileRow => decide (f.upload_job_id = jid ∧ f.path = p)) ∘
      (fun f : FileRow => if f.upload_job_id = jid ∧ f.path = q then g f else f) =
      (fun f : FileRow => decide (f.upload_job_id = jid ∧ f.path = p)) := by
    funext f
    by_cases hc : f.upload_job_id = jid ∧ f.path = q
    · simp [hc, (hg f).1, (hg f).2]
    · simp [hc]
  rw [hp]

/-- A key-preserving mutation at path q leaves the lookup of any other
path p unchanged. -/
theorem findFileRow_updateFileRow_ne (db : DB) (jid q : String)
    (g : FileRow → FileRow)
    (hg : ∀ f, (g f).upload_job_id = f.upload_job_id ∧ (g f).path = f.path)
    (p : String) (hne : p ≠ q) :
    findFileRow (updateFileRow db jid q g) jid p = findFileRow db jid p := by
  rw [findFileRow_updateFileRow db jid q g hg p]
  cases h : findFileRow db jid p with
  | none => rfl
  | some f =>
    have hf := List.find?_some h
    simp only [decide_eq_true_eq] at hf
    have hc : ¬(f.upload_job_id = jid ∧ f.path = q) := by
      intro hc
      exact hne (by rw [← hf.2, hc.2])
    simp [hc]

/-- A key-preserving mutation at path p rewrites the lookup of p. -/
theorem findFileRow_updateFileRow_self (db : DB) (jid p : String)
    (g : FileRow → FileRow)
    (hg : ∀ f, (g f).upload_job_id = f.upload_job_id ∧ (g f).path = f.path)
    (row : FileRow) (h : findFileRow db jid p = some row) :
    findFileRow (updateFileRow db jid p g) jid p = some (g row) := by
  rw [findFileRow_updateFileRow db jid p g hg p, h]
  have hf := List.find?_some h
  simp only [decide_eq_true_eq] at hf
  simp [hf.1, hf.2]

/-- Adding a fresh row at path q leaves the lookup of any other path p
unchanged. -/
theorem findFileRow_addFileRow_ne (db : DB) (jid q : String)
    (info : FileInfo) (p : String) (hne : p ≠ q) :
    findFileRow (addFileRow db jid q info) jid p = findFileRow db jid p := by
  unfold findFileRow addFileRow
  rw [List.find?_append]
  cases h : db.files.find?
      (fun f => decide (f.upload_job_id = jid ∧ f.path = p)) with
  | some f => rfl
  | none =>
    have : q ≠ p := fun hqp => hne hqp.symm
    simp [List.find?, this]

/-- Reconciliation steps never touch the jobs table. -/
theorem reconcileStep_jobs (id : String) (fr : Bool) (now thr : ℚ)
    (acc : RecResult) (pf : String × FileInfo) :
    (reconcileStep id fr now thr acc pf).db.jobs = acc.db.jobs := by
  unfold reconcileStep
  repeat' split
  all_goals rfl

/-- With the filter off a reconciliation step cannot raise. -/
theorem reconcileStep_err_false (id : String) (now thr : ℚ)
    (acc : RecResult) (pf : String × FileInfo) (h : acc.err = none) :
    (reconcileStep id false now thr acc pf).err = none := by
  unfold reconcileStep
  rw [h]
  simp only [is_file_stable_false]
  repeat' split
  all_goals simp [h]

/-- A reconciliation step only appends to files_to_upload. -/
theorem reconcileStep_toUpload (id : String) (fr : Bool) (now thr : ℚ)
    (acc : RecResult) (pf : String × FileInfo) :
    ∃ t, (reconcileStep id fr now thr acc pf).toUpload = acc.toUpload ++ t := by
  unfold reconcileStep
  repeat' split
  all_goals first
    | exact ⟨[], (List.append_nil _).symm⟩
    | exact ⟨[pf.1], rfl⟩

/-- A reconciliation step on a scan entry whose path differs from p does
not change the lookup of p. -/
theorem reconcileStep_find_frame (id : String) (fr : Bool) (now thr : ℚ)
    (acc : RecResult) (pf : String × FileInfo) (p : String)
    (hne : pf.1 ≠ p) :
    findFileRow (reconcileStep id fr now thr acc pf).db id p =
      findFileRow acc.db id p := by
  unfold reconcileStep
  repeat' split
  all_goals first
    | rfl
    | exact findFileRow_updateFileRow_ne acc.db id pf.1 (markModified pf.2)
        (fun f => ⟨rfl, rfl⟩) p (Ne.symm hne)
    | exact findFileRow_updateFileRow_ne acc.db id pf.1 markReenqueued
        (fun f => ⟨rfl, rfl⟩) p (Ne.symm hne)
    | exact findFileRow_addFileRow_ne acc.db id pf.1 pf.2 p (Ne.symm hne)

/-- Folded form of reconcileStep_err_false. -/
theorem reconcile_fold_err_false (id : String) (now thr : ℚ)
    (l : List (String × FileInfo)) :
    ∀ acc : RecResult, acc.err = none →
      (l.foldl (reconcileStep id false now thr) acc).err = none := by
  induction l with
  | nil => intro acc h; exact h
  | cons pf rest ih =>
    intro acc h
    exact ih _ (reconcileStep_err_false id now thr acc pf h)

/-- Folded form of reconcileStep_find_frame. -/
theorem reconcile_fold_find_frame (id : String) (fr : Bool) (now thr : ℚ)
    (p : String) (l : List (String × FileInfo)) (hl : ∀ pf ∈ l, pf.1 ≠ p) :
    ∀ acc : RecResult,
      findFileRow (l.foldl (reconcileStep id fr now thr) acc).db id p =
        findFileRow acc.db id p := by
  induction l with
  | nil => intro acc; rfl
  | cons pf rest ih =>
    intro acc
    rw [List.foldl_cons,
      ih (fun q hq => hl q (List.mem_cons_of_mem _ hq)),
      reconcileStep_find_frame id fr now thr acc pf p
        (hl pf (List.mem_cons_self _ _))]

/-- Folded form of reconcileStep_toUpload. -/
theorem reconcile_fold_toUpload (id : String) (fr : Bool) (now thr : ℚ)
    (l : List (String × FileInfo)) :
    ∀ acc : RecResult,
      ∃ t, (l.foldl (reconcileStep id fr now thr) acc).toUpload =
        acc.toUpload ++ t := by
  induction l with
  | nil => intro acc; exact ⟨[], by simp⟩
  | cons pf rest ih =>
    intro acc
    obtain ⟨t1, ht1⟩ := reconcileStep_toUpload id fr now thr acc pf
    obtain ⟨t2, ht2⟩ := ih (reconcileStep id fr now thr acc pf)
    exact ⟨t1 ++ t2, by rw [List.foldl_cons, ht2, ht1, List.append_assoc]⟩

/-- Folded form of reconcileStep_jobs. -/
theorem reconcile_fold_jobs (id : String) (fr : Bool) (now thr : ℚ)
    (l : List (String × FileInfo)) :
    ∀ acc : RecResult,
      (l.foldl (reconcileStep id fr now thr) acc).db.jobs = acc.db.jobs := by
  induction l with
  | nil => intro acc; rfl
  | cons pf rest ih =>
    intro acc
    rw [List.foldl_cons, ih, reconcileStep_jobs]

/-- The skip branch: an UPLOADED row whose recorded fingerprint equals
the scanned one leaves the loop state untouched. -/
theorem reconcileStep_skip (id : String) (now thr : ℚ) (acc : RecResult)
    (pf : String × FileInfo) (row : FileRow)
    (herr : acc.err = none)
    (hfind : findFileRow acc.db id pf.1 = some row)
    (hst : row.state = FileState.UPLOADED)
    (hm : row.mtime = some pf.2.mtime) (hs : row.size = some pf.2.size) :
    reconcileStep id false now thr acc pf = acc := by
  unfold reconcileStep
  rw [herr]
  simp [is_file_stable_false, hfind, hst, hm, hs]

/-- The re-enqueue branch: a non-UPLOADED row is reset via
markReenqueued and its path appended to files_to_upload. -/
theorem reconcileStep_reenqueue (id : String) (now thr : ℚ)
    (acc : RecResult) (pf : String × FileInfo) (row : FileRow)
    (herr : acc.err = none)
    (hfind : findFileRow acc.db id pf.1 = some row)
    (hst : row.state ≠ FileState.UPLOADED) :
    (reconcileStep id false now thr acc pf).db =
      updateFileRow acc.db id pf.1 markReenqueued ∧
    (reconcileStep id false now thr acc pf).toUpload =
      acc.toUpload ++ [pf.1] ∧
    (reconcileStep id false now thr acc pf).err = none := by
  unfold reconcileStep
  rw [herr]
  simp only [is_file_stable_false, hfind, Bool.not_true]
  rw [if_neg (by simp), if_neg hst]
  exact ⟨rfl, rfl, rfl⟩

/-- When every scanned entry has an UPLOADED row with a matching
fingerprint the whole reconciliation loop is the identity. -/
theorem reconcile_all_skip (id : String) (now thr : ℚ)
    (current : List (String × FileInfo)) :
    ∀ acc : RecResult, acc.err = none →
      (∀ pf ∈ current, ∃ row, findFileRow acc.db id pf.1 = some row ∧
        row.state = FileState.UPLOADED ∧ row.mtime = some pf.2.mtime ∧
        row.size = some pf.2.size) →
      current.foldl (reconcileStep id false now thr) acc = acc := by
  induction current with
  | nil => intro acc _ _; rfl
  | cons pf rest ih =>
    intro acc herr hmatch
    obtain ⟨row, hfind, hst, hm, hs⟩ := hmatch pf (List.mem_cons_self _ _)
    rw [List.foldl_cons,
      reconcileStep_skip id now thr acc pf row herr hfind hst hm hs]
    exact ih acc herr (fun q hq => hmatch q (List.mem_cons_of_mem _ hq))

/-- findJob reads only the jobs table. -/
theorem findJob_congr_jobs (db₁ db₂ : DB) (id : String)
    (h : db₁.jobs = db₂.jobs) : findJob db₁ id = findJob db₂ id := by
  unfold findJob
  rw [h]

/-- The UPLOADED and FAILED counts of a row list never exceed its
length. -/
theorem countP_uploaded_failed_le (l : List FileRow) :
    l.countP (fun f => decide (f.state = FileState.UPLOADED)) +
      l.countP (fun f => decide (f.state = FileState.FAILED)) ≤ l.length := by
  induction l with
  | nil => simp
  | cons a l ih =>
    simp only [List.countP_cons, List.length_cons]
    cases ha : a.state <;> simp [ha] <;> omega

/-- uploaded + failed = total exactly when every row is terminal. -/
theorem countP_uploaded_failed_eq_length (l : List FileRow) :
    (l.countP (fun f => decide (f.state = FileState.UPLOADED)) +
      l.countP (fun f => decide (f.state = FileState.FAILED)) = l.length) ↔
    ∀ f ∈ l, f.state = FileState.UPLOADED ∨ f.state = FileState.FAILED := by
  induction l with
  | nil => simp
  | cons a l ih =>
    have hle := countP_uploaded_failed_le l
    simp only [List.countP_cons, List.length_cons, List.mem_cons]
    cases ha : a.state
    all_goals simp [ha]
    all_goals first
      | exact Iff.trans (by omega) ih
      | omega

/-- The terminal job-state update never touches the files table. -/
theorem update_job_state_after_upload_files (db : DB) (id : String) :
    (update_job_state_after_upload db id).files = db.files := by
  unfold update_job_state_after_upload
  split
  · rfl
  · dsimp only
    repeat' split
    all_goals rfl

/-!  Claim theorems. -/

/-- C2: the spec says the scanner records each matching file's mtime "as
a floating-point number of seconds since the epoch". Evaluating the
embedded find_matching_files at a folder holding one statable matching
file shows the code instead records a datetime object
(datetime.fromtimestamp(st_mtime, tz=utc)); the value is not a float.
The File.mtime column it is later stored into is declared Float ("Unix
timestamp") and the orchestrator subtracts it from time.time(), so the
claim states the intent and the code deviates. -/
theorem C2_scan_records_datetime_not_float :
    find_matching_files matchAll fsOneFile "*" =
      [("a.txt", ⟨PyTime.datetime 100, 5⟩)] ∧
    ∀ t : ℚ,
      FileInfo.mtime ⟨PyTime.datetime 100, 5⟩ ≠ PyTime.float t := by
  refine ⟨by decide, ?_⟩
  intro t h
  exact PyTime.noConfusion h

/-- C10: a worker invoked on a file id with no File row, or on a File
row whose upload_job_id has no UploadJob row, returns false and leaves
the store untouched (in particular no row moves to IN_PROGRESS or
FAILED). -/
theorem C10_missing_row_or_job_returns_false_without_mutation
    (db : DB) (env : WorkerEnv) (file_id : ℕ) :
    (findFileById db file_id = none →
      upload_file db file_id env = (db, false)) ∧
    (∀ row, findFileById db file_id = some row →
      findJob db row.upload_job_id = none →
      upload_file db file_id env = (db, false)) := by
  constructor
  · intro h
    unfold upload_file
    rw [h]
  · intro row h hj
    unfold upload_file
    simp only [h, hj]

/-- Witness for C10 at a concrete store: file id 7 has no row in
dbUploadedOne, so the worker returns false and the store is unchanged. -/
theorem C10_witness :
    upload_file dbUploadedOne 7 wenvMatch = (dbUploadedOne, false) := by
  exact (C10_missing_row_or_job_returns_false_without_mutation
    dbUploadedOne wenvMatch 7).1 (by decide)

/-- C7: retry_job deletes exactly the File rows of the job in state
PENDING, IN_PROGRESS or FAILED; rows of other jobs and UPLOADED rows
survive verbatim (the jobs table is untouched by the delete); it then
invokes process_upload_job on the job with the recently-changed filter
as false. -/
theorem C7_retry_deletes_non_uploaded_then_reprocesses
    (db : DB) (id : String) (env : Env) :
    retry_job db id env = process_upload_job (retryDelete db id) id false env ∧
    (∀ f : FileRow, f ∈ (retryDelete db id).files ↔
      f ∈ db.files ∧ (f.upload_job_id ≠ id ∨ f.state = FileState.UPLOADED)) ∧
    (retryDelete db id).jobs = db.jobs := by
  refine ⟨rfl, ?_, rfl⟩
  intro f
  unfold retryDelete
  simp only [List.mem_filter, Bool.not_eq_eq_eq_not, Bool.not_true,
    Bool.and_eq_false_imp, decide_eq_true_eq, Bool.or_eq_true]
  constructor
  · rintro ⟨hmem, hpred⟩
    refine ⟨hmem, ?_⟩
    by_cases hid : f.upload_job_id = id
    · right
      have := hpred hid
      cases hs : f.state <;> simp [hs] at this ⊢
    · exact Or.inl hid
  · rintro ⟨hmem, hcase⟩
    refine ⟨hmem, ?_⟩
    intro hid
    rcases hcase with hne | hup
    · exact absurd hid hne
    · simp [hup]

/-- Witness for C7 at the concrete store dbRetry: the FAILED row of job
j is dropped while its UPLOADED row and the PENDING row of job k are
kept. -/
theorem C7_witness :
    (⟨1, "j", "a.txt", FileState.UPLOADED, none, some (PyTime.datetime 100),
        some 5⟩ : FileRow) ∈ (retryDelete dbRetry "j").files ∧
    (⟨3, "k", "c.txt", FileState.PENDING, none, none, none⟩ : FileRow) ∈
      (retryDelete dbRetry "j").files ∧
    ¬ (⟨2, "j", "b.txt", FileState.FAILED, some ("boom"),
        some (PyTime.datetime 100), some 9⟩ : FileRow) ∈
      (retryDelete dbRetry "j").files := by
  have h := (C7_retry_deletes_non_uploaded_then_reprocesses dbRetry "j" envTrivial).2.1
  refine ⟨(h _).mpr (by decide), (h _).mpr (by decide), ?_⟩
  intro hmem
  have := (h _).mp hmem
  revert this
  decide

/-- C8: with T, U, F the total, uploaded and failed counts of the job's
File rows, the projector reports progress 1.0 when T = 0 and U / T
otherwise, and derives COMPLETED when T = 0 or U = T, FAILED when F > 0
and U + F = T, the persisted state when that is PENDING or IN_PROGRESS,
and IN_PROGRESS otherwise; both functions only read the store. -/
theorem C8_progress_projection (db : DB) (id : String) (job : JobRow)
    (T U F : ℕ)
    (hj : findJob db id = some job)
    (hT : T = (jobFiles db id).length)
    (hU : U = countJobFiles db id (fun f => decide (f.state = FileState.UPLOADED)))
    (hF : F = countJobFiles db id (fun f => decide (f.state = FileState.FAILED))) :
    (compute_job_progress db id).progress =
      (if T = 0 then (1 : ℚ) else (U : ℚ) / (T : ℚ)) ∧
    (compute_job_progress db id).total_files = T ∧
    (compute_job_progress db id).completed_files = U ∧
    (compute_job_progress db id).failed_files = F ∧
    ((T = 0 ∨ U = T) →
      compute_job_state db id = some UploadJobState.COMPLETED) ∧
    (¬(T = 0 ∨ U = T) → 0 < F → U + F = T →
      compute_job_state db id = some UploadJobState.FAILED) ∧
    (¬(T = 0 ∨ U = T) → ¬(0 < F ∧ U + F = T) →
      (job.state = UploadJobState.PENDING ∨
        job.state = UploadJobState.IN_PROGRESS) →
      compute_job_state db id = some job.state) ∧
    (¬(T = 0 ∨ U = T) → ¬(0 < F ∧ U + F = T) →
      ¬(job.state = UploadJobState.PENDING ∨
        job.state = UploadJobState.IN_PROGRESS) →
      compute_job_state db id = some UploadJobState.IN_PROGRESS) := by
  subst hT hU hF
  unfold compute_job_state compute_job_progress
  simp only [hj]
  refine ⟨by trivial, by trivial, by trivial, by trivial, ?_, ?_, ?_, ?_⟩
  · rintro (h0 | hUT)
    · simp [h0]
    · by_cases h0 : (jobFiles db id).length = 0 <;> simp [h0, hUT]
  · intro hne hFpos hUFT
    push_neg at hne
    simp [hne.1, hne.2, hFpos, hUFT]
  · intro hne hnf hps
    push_neg at hne
    rw [if_neg hne.1, if_neg hne.2, if_neg ?_, if_pos hps]
    exact fun hc => hnf ⟨hc.1, hc.2⟩
  · intro hne hnf hps
    push_neg at hne
    rw [if_neg hne.1, if_neg hne.2, if_neg ?_, if_neg hps]
    exact fun hc => hnf ⟨hc.1, hc.2⟩

/-- Witness for C8 at the concrete store dbRetry: job j has T = 2,
U = 1, F = 1, so progress is 1/2 and the derived state is FAILED. -/
theorem C8_witness :
    (compute_job_progress dbRetry "j").progress = (1 : ℚ) / 2 ∧
    compute_job_state dbRetry "j" = some UploadJobState.FAILED := by
  have h := C8_progress_projection dbRetry "j"
    ⟨"j", "/data", "bkt", none, UploadJobState.FAILED⟩ 2 1 1
    (by decide) (by decide) (by decide) (by decide)
  refine ⟨?_, h.2.2.2.2.2.1 (by decide) (by decide) (by decide)⟩
  rw [h.1]
  norm_num

/-- C5 (amended): after the bytes are uploaded the worker heads the
destination key and marks the row UPLOADED iff the returned
ContentLength equals the file's size; on a mismatch the row becomes
FAILED with failure_reason "Upload verification failed for S3 key:
<job id>/<path>" (the reason starts with "Upload verification failed"
but also names the key, which is what the counterexample below forces). -/
theorem C5_upload_verification (db : DB) (file_id : ℕ) (env : WorkerEnv)
    (row : FileRow) (job : JobRow) (n : ℕ)
    (hr : findFileById db file_id = some row)
    (hj : findJob db row.upload_job_id = some job)
    (hsrc : env.sourceExists = true)
    (hup : env.uploadOk = true)
    (hhead : env.headResult = some n) :
    ((upload_file db file_id env).2 = true ↔ n = env.sourceSize) ∧
    (n = env.sourceSize →
      findFileById (upload_file db file_id env).1 file_id =
        some { row with state := FileState.UPLOADED }) ∧
    (n ≠ env.sourceSize →
      findFileById (upload_file db file_id env).1 file_id =
        some { row with state := FileState.FAILED,
                        failure_reason := some
                          ("Upload verification failed for S3 key: " ++
                            (job.id ++ "/" ++ row.path)) }) := by
  have h1 : findFileById
      (updateFileById db file_id (fun f => { f with state := FileState.IN_PROGRESS }))
      file_id = some { row with state := FileState.IN_PROGRESS } :=
    findFileById_updateFileById db file_id
      (fun f => { f with state := FileState.IN_PROGRESS }) (fun f => rfl) row hr
  unfold upload_file
  simp only [hr, hj, hsrc, hup, verify_upload, hhead, Bool.not_true]
  by_cases hn : n = env.sourceSize
  · have h2 := findFileById_updateFileById _ file_id
      (fun f => { f with state := FileState.UPLOADED }) (fun f => rfl) _ h1
    simp [hn, h2]
  · have h2 := findFileById_updateFileById _ file_id
      (fun f => { f with state := FileState.FAILED,
                          failure_reason := some
                            ("Upload verification failed for S3 key: " ++
                              (job.id ++ "/" ++ row.path)) }) (fun f => rfl) _ h1
    simp [hn, h2]

/-- Counterexample for C5 as frozen: at the concrete store dbPendingOne
with a verified-size mismatch (head_object reports 7 bytes for a 5-byte
file) the row does become FAILED, but its failure_reason is "Upload
verification failed for S3 key: j/a.txt", not the exact string "Upload
verification failed" the claim states. -/
theorem C5_counterexample :
    (upload_file dbPendingOne 1 wenvMismatch).2 = false ∧
    (findFileById (upload_file dbPendingOne 1 wenvMismatch).1 1).map
        FileRow.state = some FileState.FAILED ∧
    (findFileById (upload_file dbPendingOne 1 wenvMismatch).1 1).map
        FileRow.failure_reason =
      some (some ("Upload verification failed for S3 key: j/a.txt")) ∧
    (findFileById (upload_file dbPendingOne 1 wenvMismatch).1 1).map
        FileRow.failure_reason ≠
      some (some ("Upload verification failed")) := by
  decide

/-- Witness for C5 at the concrete store dbPendingOne with a matching
head_object size: the worker reports success. -/
theorem C5_witness :
    (upload_file dbPendingOne 1 wenvMatch).2 = true := by
  exact (C5_upload_verification dbPendingOne 1 wenvMatch
    ⟨1, "j", "a.txt", FileState.PENDING, none, some (PyTime.datetime 100), some 5⟩
    ⟨"j", "/data", "bkt", none, UploadJobState.IN_PROGRESS⟩ 5
    (by decide) (by decide) (by decide) (by decide) (by decide)).1.mpr (by decide)

/-- C1: the claim states the spec's intent -- a second run of
process_upload_job over an unchanged directory enqueues nothing (the
reconciler skips every UPLOADED row whose recorded fingerprint equals
the scanned one) and leaves all rows UPLOADED. The code cannot deliver
it: the first run assigns the scanner's datetime into the Float mtime
column, and the durable value a second, fresh session reads back is not
a datetime (floatColumnRoundTrip), so the skip equality
row.mtime == file_info['mtime'] is false for every unchanged file; the
UPLOADED row is classified as modified, reset to PENDING and
re-enqueued, and its bytes are uploaded again. Evaluated at the concrete
failing input: dbUploadedOne is the store the first run leaves (a.txt
UPLOADED with in-session fingerprint datetime 100 s / 5 bytes, matching
the unchanged scan of fsOneFile); after the column round trip the second
run's reconciler reads text 100, enqueues a.txt and resets the row. -/
theorem C1_unchanged_rescan_reuploads_after_column_round_trip :
    (reloadDB dbUploadedOne).files.map FileRow.mtime =
      [some (PyTime.text 100)] ∧
    (filter_files_to_upload
        (setJobState (reloadDB dbUploadedOne) "j" UploadJobState.IN_PROGRESS)
        "j" (find_matching_files envMonitor.fnmatch envMonitor.fs "*")
        false 1000 30).toUpload = ["a.txt"] ∧
    findFileRow (filter_files_to_upload
        (setJobState (reloadDB dbUploadedOne) "j" UploadJobState.IN_PROGRESS)
        "j" (find_matching_files envMonitor.fnmatch envMonitor.fs "*")
        false 1000 30).db "j" "a.txt" =
      some ⟨1, "j", "a.txt", FileState.PENDING, none,
        some (PyTime.datetime 100), some 5⟩ := by
  decide

/-- C9: a File row in state PENDING, IN_PROGRESS or FAILED whose path
appears in the scan is re-enqueued by the reconciler with state reset to
PENDING and failure_reason cleared, while the previously recorded mtime
and size fields are left exactly as they were (the scanned fingerprint
is not written in this branch). -/
theorem C9_reenqueue_retains_recorded_fingerprint (db : DB) (id : String)
    (now thr : ℚ) (current : List (String × FileInfo)) (p : String)
    (info : FileInfo) (row : FileRow)
    (hnd : (current.map Prod.fst).Nodup)
    (hin : (p, info) ∈ current)
    (hfind : findFileRow db id p = some row)
    (hst : row.state = FileState.PENDING ∨ row.state = FileState.IN_PROGRESS ∨
      row.state = FileState.FAILED) :
    (filter_files_to_upload db id current false now thr).err = none ∧
    p ∈ (filter_files_to_upload db id current false now thr).toUpload ∧
    findFileRow (filter_files_to_upload db id current false now thr).db id p =
      some { row with state := FileState.PENDING, failure_reason := none } ∧
    ({ row with state := FileState.PENDING, failure_reason := none } :
      FileRow).mtime = row.mtime ∧
    ({ row with state := FileState.PENDING, failure_reason := none } :
      FileRow).size = row.size := by
  obtain ⟨l1, l2, hsplit⟩ := List.append_of_mem hin
  subst hsplit
  have hmap : (l1.map Prod.fst ++ p :: l2.map Prod.fst).Nodup := by
    simpa using hnd
  rw [List.nodup_append] at hmap
  have hp2 : ∀ pf ∈ l2, pf.1 ≠ p := by
    intro pf hpf hcontra
    exact (List.nodup_cons.mp hmap.2.1).1
      (hcontra ▸ List.mem_map_of_mem Prod.fst hpf)
  have hp1 : ∀ pf ∈ l1, pf.1 ≠ p := by
    intro pf hpf hcontra
    exact hmap.2.2 (List.mem_map_of_mem Prod.fst hpf)
      (hcontra ▸ List.mem_cons_self p _)
  have hne : row.state ≠ FileState.UPLOADED := by
    rcases hst with h | h | h <;> simp [h]
  unfold filter_files_to_upload
  rw [List.foldl_append, List.foldl_cons]
  have herr1 : (l1.foldl (reconcileStep id false now thr)
      ⟨db, [], none⟩).err = none :=
    reconcile_fold_err_false id now thr l1 ⟨db, [], none⟩ rfl
  have hfr1 : findFileRow (l1.foldl (reconcileStep id false now thr)
      ⟨db, [], none⟩).db id p = some row := by
    rw [reconcile_fold_find_frame id false now thr p l1 hp1 ⟨db, [], none⟩]
    exact hfind
  obtain ⟨hdb2, hup2, herr2⟩ := reconcileStep_reenqueue id now thr
    (l1.foldl (reconcileStep id false now thr) ⟨db, [], none⟩)
    (p, info) row herr1 hfr1 hne
  have herr3 := reconcile_fold_err_false id now thr l2 _ herr2
  have hfr3 := reconcile_fold_find_frame id false now thr p l2 hp2
    (reconcileStep id false now thr
      (l1.foldl (reconcileStep id false now thr) ⟨db, [], none⟩) (p, info))
  obtain ⟨t, ht⟩ := reconcile_fold_toUpload id false now thr l2
    (reconcileStep id false now thr
      (l1.foldl (reconcileStep id false now thr) ⟨db, [], none⟩) (p, info))
  refine ⟨herr3, ?_, ?_, rfl, rfl⟩
  · rw [ht, hup2]
    exact List.mem_append.mpr (Or.inl (List.mem_append.mpr
      (Or.inr (List.mem_singleton.mpr rfl))))
  · rw [hfr3, hdb2]
    exact findFileRow_updateFileRow_self _ id p markReenqueued
      (fun f => ⟨rfl, rfl⟩) row hfr1

/-- Witness for C9 at a concrete store: the FAILED b.txt row of dbRetry
is re-enqueued with its recorded fingerprint kept and its reason
cleared. -/
theorem C9_witness :
    "b.txt" ∈ (filter_files_to_upload dbRetry "j"
      [("b.txt", ⟨PyTime.datetime 200, 11⟩)] false 1000 30).toUpload ∧
    findFileRow (filter_files_to_upload dbRetry "j"
        [("b.txt", ⟨PyTime.datetime 200, 11⟩)] false 1000 30).db "j" "b.txt" =
      some ⟨2, "j", "b.txt", FileState.PENDING, none,
        some (PyTime.datetime 100), some 9⟩ := by
  have h := C9_reenqueue_retains_recorded_fingerprint dbRetry "j" 1000 30
    [("b.txt", ⟨PyTime.datetime 200, 11⟩)] "b.txt" ⟨PyTime.datetime 200, 11⟩
    ⟨2, "j", "b.txt", FileState.FAILED, some ("boom"),
      some (PyTime.datetime 100), some 9⟩
    (by decide) (by decide) (by decide) (by decide)
  exact ⟨h.2.1, h.2.2.1⟩

/-- C3: the claim describes the stability filter deferring only files
modified less than file_stability_threshold ago. Evaluating the embedded
process_upload_job on a monitored re-scan (filter on) of a folder
holding one stable file -- mtime 100, time.time() = 1000, threshold 30,
so now - mtime = 900, far beyond the threshold, and per the spec the
file must be enqueued and uploaded -- shows the run instead raising
TypeError inside is_file_stable (time.time() minus the scanner's
datetime), creating no File row, uploading nothing and marking the job
FAILED. The stability classification never happens for any file. -/
theorem C3_stability_filter_raises_instead_of_classifying :
    (process_upload_job dbNoFiles "j" true envMonitor).2 = false ∧
    jobStateOf (process_upload_job dbNoFiles "j" true envMonitor).1 "j" =
      some UploadJobState.FAILED ∧
    (process_upload_job dbNoFiles "j" true envMonitor).1.files = [] ∧
    (filter_files_to_upload (setJobState dbNoFiles "j" UploadJobState.IN_PROGRESS)
        "j" (find_matching_files envMonitor.fnmatch envMonitor.fs "*")
        true 1000 30).err = some PyError.typeError ∧
    (30 : ℚ) ≤ 1000 - 100 := by
  refine ⟨by decide, by decide, by decide, by decide, by norm_num⟩

/-- Counterexample for C4 as frozen: at dbUploadedOne (job j whose only
File row is UPLOADED, nothing FAILED, nothing non-terminal) a monitored
re-scan makes the reconciliation step raise TypeError; the catch-all
handler of process_upload_job then persists job state FAILED. The job
was failed solely because reconciliation threw, with zero FAILED rows. -/
theorem C4_counterexample :
    (process_upload_job dbUploadedOne "j" true envMonitor).2 = false ∧
    jobStateOf (process_upload_job dbUploadedOne "j" true envMonitor).1 "j" =
      some UploadJobState.FAILED ∧
    (∀ f ∈ (process_upload_job dbUploadedOne "j" true envMonitor).1.files,
      f.state = FileState.UPLOADED) ∧
    (filter_files_to_upload (setJobState dbUploadedOne "j" UploadJobState.IN_PROGRESS)
        "j" (find_matching_files envMonitor.fnmatch envMonitor.fs "*")
        true 1000 30).err = some PyError.typeError := by
  decide

/-- C4 (amended): an exception escaping the reconciliation step does by
itself put the job into FAILED -- the catch-all handler of
process_upload_job persists FAILED and returns false. Only when no
exception escapes is job failure derived: with the job IN_PROGRESS, the
terminal update persists FAILED exactly when at least one File row of
the job is FAILED and no row is non-terminal (exceptions raised inside
the terminal update itself are swallowed there and fail nothing). -/
theorem C4_job_failure_derivation (db : DB) (id : String) :
    (∀ (env : Env) (filterRecent : Bool) (job : JobRow) (e : PyError),
      findJob db id = some job → env.bucket_ok = true →
      (find_matching_files env.fnmatch env.fs (patternOrStar job.pattern)).isEmpty
        = false →
      (filter_files_to_upload (setJobState db id UploadJobState.IN_PROGRESS) id
          (find_matching_files env.fnmatch env.fs (patternOrStar job.pattern))
          filterRecent env.now env.threshold).err = some e →
      (process_upload_job db id filterRecent env).2 = false ∧
      jobStateOf (process_upload_job db id filterRecent env).1 id =
        some UploadJobState.FAILED) ∧
    (jobStateOf db id = some UploadJobState.IN_PROGRESS →
      (jobStateOf (update_job_state_after_upload db id) id =
          some UploadJobState.FAILED ↔
        (∃ f ∈ jobFiles db id, f.state = FileState.FAILED) ∧
        ∀ f ∈ jobFiles db id, f.state = FileState.UPLOADED ∨
          f.state = FileState.FAILED)) := by
  constructor
  · intro env filterRecent job e hj hb hcur herr
    unfold process_upload_job
    simp only [hj, hb, Bool.not_true, Bool.false_eq_true, if_false, hcur, herr]
    refine ⟨by trivial, ?_⟩
    have hjobs : (filter_files_to_upload
        (setJobState db id UploadJobState.IN_PROGRESS) id
        (find_matching_files env.fnmatch env.fs (patternOrStar job.pattern))
        filterRecent env.now env.threshold).db.jobs =
        (setJobState db id UploadJobState.IN_PROGRESS).jobs :=
      reconcile_fold_jobs id filterRecent env.now env.threshold _ _
    unfold jobStateOf
    rw [findJob_setJobState_self,
      findJob_congr_jobs _ (setJobState db id UploadJobState.IN_PROGRESS) id hjobs,
      findJob_setJobState_self, hj]
    rfl
  · intro hjs
    have hfind : ∃ job, findJob db id = some job ∧
        job.state = UploadJobState.IN_PROGRESS := by
      unfold jobStateOf at hjs
      cases h : findJob db id with
      | none => rw [h] at hjs; exact absurd hjs (by simp)
      | some job =>
        rw [h] at hjs
        exact ⟨job, rfl, by simpa using hjs⟩
    obtain ⟨job, hj, hjstate⟩ := hfind
    unfold update_job_state_after_upload
    simp only [hj]
    by_cases hUF : countJobFiles db id
        (fun f => decide (f.state = FileState.UPLOADED)) +
        countJobFiles db id (fun f => decide (f.state = FileState.FAILED)) =
        (jobFiles db id).length
    · by_cases hF : countJobFiles db id
          (fun f => decide (f.state = FileState.FAILED)) = 0
      · rw [if_pos hUF, if_pos hF]
        constructor
        · intro hcontra
          unfold jobStateOf at hcontra
          rw [findJob_setJobState_self, hj] at hcontra
          simp at hcontra
        · rintro ⟨⟨f, hfmem, hfst⟩, -⟩
          have : (0 : ℕ) < countJobFiles db id
              (fun f => decide (f.state = FileState.FAILED)) := by
            unfold countJobFiles
            exact List.countP_pos_iff.mpr ⟨f, hfmem, by simp [hfst]⟩
          omega
      · rw [if_pos hUF, if_neg hF]
        constructor
        · intro _
          refine ⟨?_, ?_⟩
          · have hpos : (0 : ℕ) < countJobFiles db id
                (fun f => decide (f.state = FileState.FAILED)) :=
              Nat.pos_of_ne_zero hF
            unfold countJobFiles at hpos
            obtain ⟨f, hfmem, hfp⟩ := List.countP_pos_iff.mp hpos
            exact ⟨f, hfmem, by simpa using hfp⟩
          · exact (countP_uploaded_failed_eq_length (jobFiles db id)).mp hUF
        · intro _
          unfold jobStateOf
          rw [findJob_setJobState_self, hj]
          rfl
    · rw [if_neg hUF]
      constructor
      · intro hcontra
        rw [hjs] at hcontra
        simp at hcontra
      · rintro ⟨-, hterm⟩
        exact absurd
          ((countP_uploaded_failed_eq_length (jobFiles db id)).mpr hterm) hUF

/-- Witness for C4 at the concrete store dbMixed (job j IN_PROGRESS, one
UPLOADED and one FAILED row): the derived terminal state is FAILED. -/
theorem C4_witness :
    jobStateOf (update_job_state_after_upload dbMixed "j") "j" =
      some UploadJobState.FAILED := by
  exact ((C4_job_failure_derivation dbMixed "j").2 (by decide)).mpr (by decide)

/-- Closed form of the multipart while loop: starting at any offset with
enough fuel it emits one triple per remaining ceil-chunk, numbering
consecutively from p, advancing the offset by the chunk size, the last
chunk truncated by min. -/
theorem partLoop_eq (C : ℕ) (hC : 0 < C) (S : ℕ) :
    ∀ (fuel offset p : ℕ), S - offset ≤ fuel →
      partLoop C S fuel offset p =
        (List.range ((S - offset + C - 1) / C)).map
          (fun k => (p + k, offset + C * k, min C (S - offset - C * k))) := by
  intro fuel
  induction fuel with
  | zero =>
    intro offset p h
    have h0 : S - offset = 0 := Nat.le_zero.mp h
    rw [partLoop, h0]
    have hdiv : (0 + C - 1) / C = 0 := Nat.div_eq_of_lt (by omega)
    rw [hdiv]
    rfl
  | succ fuel ih =>
    intro offset p h
    rw [partLoop]
    by_cases hlt : offset < S
    · rw [if_pos hlt]
      have hR : 0 < S - offset := by omega
      show (p, offset, min C (S - offset)) ::
        partLoop C S fuel (offset + min C (S - offset)) (p + 1) = _
      rw [ih (offset + min C (S - offset)) (p + 1) (by omega)]
      by_cases hCR : C ≤ S - offset
      · have hmin : min C (S - offset) = C := min_eq_left hCR
        rw [hmin]
        have hcount : (S - offset + C - 1) / C =
            (S - (offset + C) + C - 1) / C + 1 := by
          have he : S - offset + C - 1 = (S - (offset + C) + C - 1) + C := by
            omega
          rw [he, Nat.add_div_right _ hC]
        rw [hcount, List.range_succ_eq_map, List.map_cons, List.map_map]
        refine congrArg₂ List.cons ?_ ?_
        · simp [hmin]
        · refine List.map_congr_left ?_
          intro k hk
          have hms : C * (k + 1) = C * k + C := Nat.mul_succ C k
          simp only [Function.comp, Nat.succ_eq_add_one]
          refine congrArg₂ Prod.mk (by omega) (congrArg₂ Prod.mk ?_ ?_)
          · omega
          · have harg : S - (offset + C) - C * k = S - offset - C * (k + 1) := by
              omega
            rw [harg]
      · have hRC : S - offset < C := by omega
        have hmin : min C (S - offset) = S - offset := min_eq_right (by omega)
        rw [hmin]
        have hofs : offset + (S - offset) = S := by omega
        have hzero : S - (offset + (S - offset)) = 0 := by omega
        have hdiv0 : (S - (offset + (S - offset)) + C - 1) / C = 0 := by
          rw [hzero]
          exact Nat.div_eq_of_lt (by omega)
        have hdiv1 : (S - offset + C - 1) / C = 1 := by
          have he : S - offset + C - 1 = (S - offset - 1) + C := by omega
          rw [he, Nat.add_div_right _ hC, Nat.div_eq_of_lt (by omega)]
        rw [hdiv0, hdiv1]
        have hr1 : List.range 1 = [0] := rfl
        simp [hr1, hmin]
    · rw [if_neg hlt]
      have h0 : S - offset = 0 := by omega
      rw [h0]
      have hdiv : (0 + C - 1) / C = 0 := Nat.div_eq_of_lt (by omega)
      rw [hdiv]
      rfl

/-- Bounds pinning ceil(S / C) = (S + C - 1) / C: the parts cover S and
the last part is needed. -/
theorem ceil_div_bounds (C S : ℕ) (hC : 0 < C) (hS : 0 < S) :
    0 < (S + C - 1) / C ∧ S ≤ ((S + C - 1) / C) * C ∧
      ((S + C - 1) / C - 1) * C < S := by
  obtain ⟨r, hrlt, hqr⟩ : ∃ r, r < C ∧ C * ((S - 1) / C) + r = S - 1 :=
    ⟨(S - 1) % C, Nat.mod_lt _ hC, Nat.div_add_mod _ _⟩
  have hN : (S + C - 1) / C = (S - 1) / C + 1 := by
    have he : S + C - 1 = (S - 1) + C := by omega
    rw [he, Nat.add_div_right _ hC]
  refine ⟨?_, ?_, ?_⟩
  · rw [hN]
    exact Nat.succ_pos _
  · rw [hN]
    have h1 : ((S - 1) / C + 1) * C = C * ((S - 1) / C) + C := by ring
    rw [h1]
    generalize (S - 1) / C = q at hqr ⊢
    omega
  · rw [hN, Nat.add_sub_cancel, Nat.mul_comm]
    generalize (S - 1) / C = q at hqr ⊢
    omega

/-- C6: with chunk size C > 0 and file size S, a file with S ≤ C is sent
with a single put_object; otherwise the worker runs a multipart upload
whose part_info has exactly N = ceil(S / C) = (S + C - 1) / C entries,
numbered 1..N in ascending order, every part except the last of size
exactly C and the last of size S - (N - 1) * C, and the completion call
submits exactly those N part numbers with their ETags, in the same
ascending part-number order. -/
theorem C6_chunking_and_completion_order (C S : ℕ) (hC : 0 < C)
    (etag : ℕ → String) :
    (S ≤ C → upload_plan C S = UploadPlan.single) ∧
    (C < S →
      upload_plan C S = UploadPlan.multipart (part_info C S) ∧
      (part_info C S).length = (S + C - 1) / C ∧
      (part_info C S).map (fun t => t.1) =
        List.range' 1 ((S + C - 1) / C) ∧
      (∀ t ∈ part_info C S,
        t.2.2 = if t.1 = (S + C - 1) / C
          then S - ((S + C - 1) / C - 1) * C else C) ∧
      multipart_completion_parts C S etag =
        (part_info C S).map (fun t => (t.1, etag t.1)) ∧
      (multipart_completion_parts C S etag).map (fun q => q.1) =
        List.range' 1 ((S + C - 1) / C)) := by
  constructor
  · intro hle
    unfold upload_plan
    rw [if_pos hle]
  · intro hlt
    have hS : 0 < S := by omega
    obtain ⟨hNpos, hub, hlb⟩ := ceil_div_bounds C S hC hS
    set N := (S + C - 1) / C with hNdef
    have hpi : part_info C S =
        (List.range N).map (fun k => (1 + k, C * k, min C (S - C * k))) := by
      unfold part_info
      rw [partLoop_eq C hC S (S + 1) 0 1 (by omega)]
      simp only [Nat.sub_zero, Nat.zero_add]
    have hlen : (part_info C S).length = N := by
      rw [hpi, List.length_map, List.length_range]
    have hnums : (part_info C S).map (fun t => t.1) = List.range' 1 N := by
      rw [hpi, List.map_map, List.range'_eq_map_range]
      rfl
    have hsizes : ∀ t ∈ part_info C S,
        t.2.2 = if t.1 = N then S - (N - 1) * C else C := by
      intro t ht
      rw [hpi] at ht
      obtain ⟨k, hk, rfl⟩ := List.mem_map.mp ht
      rw [List.mem_range] at hk
      dsimp only
      by_cases hlast : 1 + k = N
      · rw [if_pos hlast]
        have hkeq : k = N - 1 := by omega
        subst hkeq
        rw [Nat.mul_comm C (N - 1)]
        have h3 : N * C = (N - 1) * C + C := by
          have h4 : N = (N - 1) + 1 := by omega
          calc N * C = ((N - 1) + 1) * C := by rw [← h4]
            _ = (N - 1) * C + C := by ring
        have hle2 : S - (N - 1) * C ≤ C := by omega
        exact min_eq_right hle2
      · rw [if_neg hlast]
        have hbig : C * (k + 1) ≤ (N - 1) * C := by
          have hstep : k + 1 ≤ N - 1 := by omega
          calc C * (k + 1) = (k + 1) * C := Nat.mul_comm _ _
            _ ≤ (N - 1) * C := Nat.mul_le_mul_right C hstep
        have hms : C * (k + 1) = C * k + C := Nat.mul_succ C k
        have hCk : C ≤ S - C * k := by omega
        exact min_eq_left hCk
    refine ⟨?_, hlen, hnums, hsizes, rfl, ?_⟩
    · unfold upload_plan
      rw [if_neg (by omega)]
    · unfold multipart_completion_parts
      rw [List.map_map]
      exact hnums

/-- Witness for C6 at chunk size 2, file size 5: three parts numbered
1, 2, 3 with sizes 2, 2, 1, and a single PUT at file size 2. -/
theorem C6_witness :
    upload_plan 2 5 = UploadPlan.multipart (part_info 2 5) ∧
    (part_info 2 5).map (fun t => t.1) = List.range' 1 3 ∧
    upload_plan 2 2 = UploadPlan.single := by
  have h := C6_chunking_and_completion_order 2 5 (by decide) (fun _ => "")
  have h2 := (C6_chunking_and_completion_order 2 2 (by decide)
    (fun _ => "")).1 (by decide)
  exact ⟨(h.2 (by decide)).1, (h.2 (by decide)).2.2.1, h2⟩

end Genomics
